import Mathlib

/-!
# Verification of the pseudo-dynamic-memory pool and its containers

Shallow embedding of `src/dmemory.h` (block pool + bit-packed occupancy
bitmap + first-fit allocator), `src/stack_dm.h` (generic stack) and
`src/array_dm.h` (generic dynamic array).

Modelling conventions:
* `__free_memory` (the occupancy bitmap, `MEMORY_SIZE / 8` bytes) is a
  `List Nat`; every byte produced by the operations stays below 256.
* C `int` loop indices over blocks are nonnegative throughout the source,
  so they are modelled as `Nat`.
* Container fields `size` and `capacity` are C `int`s and are modelled as
  `Int`.  Every division in the source (`CAPACITY / 2`, `capacity / 2`)
  is applied to nonnegative values in each theorem below, where Lean's
  `Int` division agrees with C's truncating division.
* `__d_memory` (the data array) is modelled as a total function
  `Int → α`: element reads/writes are pointer arithmetic in the source
  and the bounds question is treated separately (claim C4).
* Out-of-range bitmap accesses are undefined behaviour in C
  (`__free_memory` has `MEMORY_SIZE / 8` entries); the model reads 0 and
  drops writes there (`List.getD` / `List.set`), and the out-of-range
  *index* itself is what the bounds theorem exhibits.
-/

namespace DMem

/-- Source: `#define MEMORY_SIZE 512` (in blocks). -/
def MEMORY_SIZE : Nat := 512

/-- Source: `sizeof(block)`: a block is an 8-byte chunk (`typedef void* block`). -/
def blockSize : Nat := 8

/-- Source: `byte __bit_encoder (int idx) { return (byte)(1 << (idx % 8)); }`
The `% 256` models the cast to `byte`; it is the identity here since
`idx % 8 < 8`. -/
def __bit_encoder (idx : Nat) : Nat :=
  (1 <<< (idx % 8)) % 256

/-- Source: `void __set_block_used (int idx)`:
`__free_memory[idx/8] = __free_memory[idx/8] | __bit_encoder(idx);` -/
def __set_block_used (mem : List Nat) (idx : Nat) : List Nat :=
  mem.set (idx / 8) (mem.getD (idx / 8) 0 ||| __bit_encoder idx)

/-- Source: `void __set_block_free (int idx)`:
`__free_memory[idx/8] = __free_memory[idx/8] & (~__bit_encoder(idx));`
`~` acts on a byte-sized value here, i.e. as `255 ^^^ ·`. -/
def __set_block_free (mem : List Nat) (idx : Nat) : List Nat :=
  mem.set (idx / 8) (mem.getD (idx / 8) 0 &&& (255 ^^^ __bit_encoder idx))

/-- Source: `__bool __check_block_free (int idx)`: returns 1 (`true`) when the
bit is clear (the block is free), 0 (`false`) when it is set. -/
def __check_block_free (mem : List Nat) (idx : Nat) : Bool :=
  mem.getD (idx / 8) 0 &&& __bit_encoder idx == 0

/-- Source: `initialize_memory()`, bitmap part: every occupancy byte is `EMPTY` (0). -/
def initialize_free_memory : List Nat :=
  List.replicate (MEMORY_SIZE / 8) 0

/-- Inner probe loop of `__find_free_chunk`:
`for (int j = i; j < i + additionalBlocksNeeded; j++)
     if (!__check_block_free(j)) { i = j; isOK = NO; break; }`
`probeFrom mem j k` runs the remaining `k` iterations starting at `j` and
returns the first occupied index it meets (`some j`, the value the C code
stores back into `i`), or `none` when every probed block is free (`isOK`).
Note the loop starts at `j = i` (re-checking the known-free block `i`) and
runs `numBlocks - 1` times, so it never probes block `i + numBlocks - 1`. -/
def probeFrom (mem : List Nat) : Nat → Nat → Option Nat
  | _, 0 => none
  | j, k + 1 => if __check_block_free mem j then probeFrom mem (j + 1) k else some j

/-- Outer loop of `__find_free_chunk`:
`for (int i = 0; i < MEMORY_SIZE; i++)` with the skip-ahead `i = j`
(so the next considered index is `j + 1`).  `fuel` only bounds the
recursion; each iteration advances `i` by at least one, so with
`fuel = MEMORY_SIZE` (from `i = 0`) the `fuel = 0` case is never the
reason the scan stops — `scanLoop_fuel_irrelevant` below proves the fuel
is an artifact. -/
def scanLoop (mem : List Nat) (add : Nat) : Nat → Nat → Option Nat
  | _, 0 => none
  | i, fuel + 1 =>
    if i < MEMORY_SIZE then
      if __check_block_free mem i then
        match probeFrom mem i add with
        | none => some i
        | some j => scanLoop mem add (j + 1) fuel
      else scanLoop mem add (i + 1) fuel
    else none

/-- The indices the marking loop of `__find_free_chunk` passes to
`__set_block_used`: `for (int j = i; j <= i + additionalBlocksNeeded; j++)`,
i.e. `numBlocks` consecutive indices starting at the chosen `i`. -/
def markIndices (i numBlocks : Nat) : List Nat :=
  (List.range numBlocks).map (fun k => i + k)

/-- The marking loop itself: sets every index of `markIndices i numBlocks`. -/
def markUsed (mem : List Nat) (i numBlocks : Nat) : List Nat :=
  (markIndices i numBlocks).foldl __set_block_used mem

/-- Source: `block* __find_free_chunk(int numBlocks)`: scans with
`additionalBlocksNeeded = numBlocks - 1`, marks the chosen run used and
returns its start index, or returns `none` (the C code reports
"Unable to allocate memory" and returns `NULL`). -/
def __find_free_chunk (mem : List Nat) (numBlocks : Nat) :
    Option (Nat × List Nat) :=
  match scanLoop mem (numBlocks - 1) 0 MEMORY_SIZE with
  | some i => some (i, markUsed mem i numBlocks)
  | none => none

/-- Source: `block* dmalloc ()`. -/
def dmalloc (mem : List Nat) : Option (Nat × List Nat) :=
  __find_free_chunk mem 1

/-- Source: `block* dmalloc_array (int size)`. -/
def dmalloc_array (mem : List Nat) (size : Nat) : Option (Nat × List Nat) :=
  __find_free_chunk mem size

/-- Source: `void dmfree (block* item)`: `item` is identified by its block index. -/
def dmfree (mem : List Nat) (index : Nat) : List Nat :=
  __set_block_free mem index

/-- Source: `void dmfree_array (block* start, int size)`:
`for (int i = index; i < size + index; i++) __set_block_free(i);` -/
def dmfree_array (mem : List Nat) (index size : Nat) : List Nat :=
  ((List.range size).map (fun k => index + k)).foldl __set_block_free mem

/-- Source: `int amount_memory_used ()`: counts the occupied blocks
(`if (!__check_block_free(i)) ++slotsFilled;`) and returns
`slotsFilled * 100 / MEMORY_SIZE` (C integer division; all values are
nonnegative and `slotsFilled * 100 ≤ 51200` fits an `int`). -/
def amount_memory_used (mem : List Nat) : Nat :=
  ((List.range MEMORY_SIZE).countP (fun i => !(__check_block_free mem i))) * 100
    / MEMORY_SIZE

/-- Number of occupied blocks of the pool, written independently of the
counting loop (used to state claim C10 against `amount_memory_used`). -/
def usedCount (mem : List Nat) : Nat :=
  ((Finset.range MEMORY_SIZE).filter (fun i => __check_block_free mem i = false)).card

/-- Predicate: `s` starts a run of `n` contiguous free blocks inside the pool. -/
def freeRunAt (mem : List Nat) (s n : Nat) : Bool :=
  decide (s + n ≤ MEMORY_SIZE) &&
    (List.range n).all (fun k => __check_block_free mem (s + k))

/-- Follows the spec's words (§4.1 `allocate`): the lowest-indexed start of
a run of `n` contiguous free blocks, or `none` when no such run exists
anywhere in the pool.  This is the comparison point for the first-fit
claims; it is deliberately NOT a transcription of `__find_free_chunk`. -/
def specFirstFitStart (mem : List Nat) (n : Nat) : Option Nat :=
  (List.range MEMORY_SIZE).find? (fun s => freeRunAt mem s n)

/-- Source: `#define TYPECOEF (sizeof(block) / sizeof(TYPE))` — the per-type array
coefficient (`INTCOEF`, `CHARCOEF`, ... are instances of the same formula). -/
def TYPECOEF (sizeofType : Nat) : Nat :=
  blockSize / sizeofType

/-- Source: `#define INTCOEF (sizeof(block) / sizeof(int))` with `sizeof(int) = 4`. -/
def INTCOEF : Nat :=
  blockSize / 4

/-- The block offset (from the run's start) of the element written as
`arr[TYPECOEF * i]` in the source: the access is `TYPECOEF * i` elements of
`sizeofType` bytes past `arr`, i.e. `TYPECOEF * i * sizeofType / blockSize`
blocks past it. -/
def elemBlockOffset (sizeofType i : Nat) : Nat :=
  TYPECOEF sizeofType * i * sizeofType / blockSize

end DMem

namespace StackDM

open DMem

/-- Source: `#define CAPACITY 8` — the default container capacity. -/
def CAPACITY : Nat := 8

/-- Source: `typedef struct { TYPE* arr; int size; int capacity; } stack_TYPE;`
augmented with the pool state the operations act on: `freeMem` is
`__free_memory` and `dmem` is `__d_memory` (element values, one per block:
`arr[TYPECOEF * i]` lies in block `start + i`, see `elemBlockOffset`).
`arr` itself is the block index `start` of the stack's run. -/
structure StackState (α : Type) where
  freeMem : List Nat
  dmem : Int → α
  start : Int
  size : Int
  capacity : Int

/-- Source: `stack_TYPE make_stack_TYPE ()`: capacity `CAPACITY`, size 0,
`arr = dmalloc_array(CAPACITY)`.  The C code stores a `NULL` pointer when
allocation fails (and the program breaks on first use); the model returns
`none` in that case. -/
def make_stack (freeMem : List Nat) (dmem : Int → α) : Option (StackState α) :=
  (dmalloc_array freeMem CAPACITY).map fun p =>
    ⟨p.2, dmem, (p.1 : Int), 0, (CAPACITY : Int)⟩

/-- The state built by the growth step of `push_TYPE` once
`dmalloc_array` has returned the pair `p = (new start, bitmap)`:
`c = (CAPACITY / 2) + capacity`; copy the `size` elements in index order
(`newArray[TYPECOEF*i] = arr[TYPECOEF*i]`, each read seeing earlier copy
writes, exactly as the C loop does); free the old run
(`dmfree_array(arr, capacity)`); adopt the new run and capacity. -/
def grownState (st : StackState α) (p : Nat × List Nat) : StackState α :=
  let c : Int := ((CAPACITY : Int) / 2) + st.capacity
  let d1 := (List.range st.size.toNat).foldl
    (fun d i => Function.update d ((p.1 : Int) + (i : Int)) (d (st.start + (i : Int))))
    st.dmem
  ⟨dmfree_array p.2 st.start.toNat st.capacity.toNat, d1, (p.1 : Int), st.size, c⟩

/-- Growth step of `push_TYPE` (the body of `if (size == capacity)`).
`none` models `dmalloc_array` returning `NULL` (the C code would then
write through `NULL`). -/
def grow (st : StackState α) : Option (StackState α) :=
  (dmalloc_array st.freeMem (((CAPACITY : Int) / 2) + st.capacity).toNat).map
    (grownState st)

/-- Source: `void push_TYPE (stack_TYPE* stack, TYPE value)`: grows when
`size == capacity`, then `arr[TYPECOEF * size] = value; ++size;`. -/
def push (st : StackState α) (value : α) : Option (StackState α) :=
  (if st.size = st.capacity then grow st else some st).map fun g =>
    { g with dmem := Function.update g.dmem (g.start + g.size) value
             size := g.size + 1 }

/-- Source: `TYPE pop_TYPE (stack_TYPE* stack)`: `--size`; if
`capacity > CAPACITY && size < capacity / 2`, free the trailing half
(`dmfree_array(&arr[TYPECOEF * (capacity / 2)], capacity / 2)`, i.e.
`capacity / 2` blocks from block `start + capacity / 2`) and halve
`capacity`; return `arr[TYPECOEF * size]`. -/
def pop (st : StackState α) : StackState α × α :=
  let sz := st.size - 1
  let st1 : StackState α :=
    if (CAPACITY : Int) < st.capacity ∧ sz < st.capacity / 2 then
      { st with
          freeMem := dmfree_array st.freeMem (st.start + st.capacity / 2).toNat
            (st.capacity / 2).toNat
          capacity := st.capacity / 2
          size := sz }
    else { st with size := sz }
  (st1, st1.dmem (st1.start + st1.size))

/-- The logical element read `stack->arr[TYPECOEF * i]` (block `start + i`);
the stack header has no named accessor, this is how the driver reads it. -/
def read_elem (st : StackState α) (i : Int) : α :=
  st.dmem (st.start + i)

/-- Source: `push` over a list of values, left to right; `none` as soon as one
push fails. -/
def pushAll (st : StackState α) : List α → Option (StackState α)
  | [] => some st
  | v :: vs => (push st v).bind (fun st1 => pushAll st1 vs)

/-- Source: `pop` iterated `n` times, keeping the state. -/
def popN : Nat → StackState α → StackState α
  | 0, st => st
  | n + 1, st => popN n (pop st).1

end StackDM

namespace ArrayDM

open DMem StackDM

/-- Source: `typedef struct { TYPE* start; int size; int capacity; } array_TYPE;`
with the same pool fields as `StackState`. -/
structure ArrayState (α : Type) where
  freeMem : List Nat
  dmem : Int → α
  start : Int
  size : Int
  capacity : Int

/-- Source: `array_TYPE make_array_TYPE ()`: sets `capacity = CAPACITY` (note: the
source uses `CAPACITY`, not `CAPACITY_ARRAY`) and `size = 0`.  It never
allocates a run: `start` is left uninitialized, modelled as an arbitrary
`garbage` parameter. -/
def make_array (freeMem : List Nat) (dmem : Int → α) (garbage : Int) :
    ArrayState α :=
  ⟨freeMem, dmem, garbage, 0, (CAPACITY : Int)⟩

/-- The state built by the growth step of `append_TYPE` (identical to the
stack's growth step) once `dmalloc_array` has returned `p`. -/
def grownArray (arr : ArrayState α) (p : Nat × List Nat) : ArrayState α :=
  let c : Int := ((CAPACITY : Int) / 2) + arr.capacity
  let d1 := (List.range arr.size.toNat).foldl
    (fun d i => Function.update d ((p.1 : Int) + (i : Int)) (d (arr.start + (i : Int))))
    arr.dmem
  ⟨dmfree_array p.2 arr.start.toNat arr.capacity.toNat, d1, (p.1 : Int), arr.size, c⟩

/-- Source: `void append_TYPE (array_TYPE* array, TYPE elem)`: when
`size == capacity` it grows exactly as the stack does (allocate
`c = CAPACITY/2 + capacity`, copy, free old, adopt).  NOTE (faithful to the
source): the function body ends after the growth `if` — `elem` is never
stored and `size` is never incremented. -/
def append (arr : ArrayState α) (elem : α) : Option (ArrayState α) :=
  if arr.size = arr.capacity then
    (dmalloc_array arr.freeMem (((CAPACITY : Int) / 2) + arr.capacity).toNat).map
      (grownArray arr)
  else some arr

/-- Source: `TYPE at_TYPE (array_TYPE* array, int idx)`:
`return array->start[TYPECOEF * idx];` (block `start + idx`). -/
def at_element (arr : ArrayState α) (idx : Int) : α :=
  arr.dmem (arr.start + idx)

/-- Source: `TYPE remove_last_TYPE (array_TYPE* array)`:
`--size; return start[TYPECOEF * size];` (no shrink step). -/
def remove_last (arr : ArrayState α) : ArrayState α × α :=
  let a : ArrayState α := { arr with size := arr.size - 1 }
  (a, a.dmem (a.start + a.size))

/-- Source: `TYPE remove_at_TYPE (array_TYPE* array, int idx)`: reads
`item = at_TYPE(array, idx)`, shifts `start[TYPECOEF*(i-1)] = start[TYPECOEF*i]`
for `i = idx+1 .. size-1` (reads see earlier shift writes, as the C loop
does), then `--size`.  The source function is declared `TYPE` but falls off
the end without returning `item`, so the model yields only the state. -/
def remove_at (arr : ArrayState α) (idx : Int) : ArrayState α :=
  let d1 := (List.range (arr.size - (idx + 1)).toNat).foldl
    (fun d k => Function.update d (arr.start + idx + (k : Int))
      (d (arr.start + idx + 1 + (k : Int))))
    arr.dmem
  { arr with dmem := d1, size := arr.size - 1 }

end ArrayDM

namespace Claims

open DMem StackDM ArrayDM

/-- Call sequence exhibiting overlapping live runs (claim C1):
from the initialized pool, `allocate(1)` (grants block 0), `allocate(1)`
(grants block 1, still live at the end), `release(0, 1)`, `allocate(2)`.
Returns the start of the second and of the fourth allocation. -/
def c1scenario : Option (Nat × Nat) :=
  (__find_free_chunk initialize_free_memory 1).bind fun p1 =>
    (__find_free_chunk p1.2 1).bind fun p2 =>
      (__find_free_chunk (dmfree_array p2.2 p1.1 1) 2).map fun p3 => (p2.1, p3.1)

/-- Pool for claim C2: block 1 used (`__free_memory[0] = 2`), all other
blocks free; the lowest run of 2 contiguous free blocks starts at 2. -/
def c2bitmap : List Nat := 2 :: List.replicate 63 0

/-- Pool for claim C3: block 0 free, every other block used — only one
free block remains, so no run of 2 contiguous free blocks exists. -/
def c3bitmap : List Nat := 254 :: List.replicate 63 255

/-- Pool for claim C4: block 511 (the last block) free, every other block
used. -/
def c4bitmap : List Nat := List.replicate 63 255 ++ [127]

/-- Input for claim C5: a fresh dynamic array (size 0, capacity 8) on the
initialized pool, with zeroed data memory. -/
def c5fresh : ArrayState Int := make_array initialize_free_memory (fun _ => 0) 0

/-- Stack reached for claim C6's counterexample: make (capacity 8), then
12 pushes (one growth at the 9th push: capacity 12, size 12). -/
def c6stack : Option (StackState Int) :=
  (make_stack initialize_free_memory (fun _ => (0 : Int))).bind
    (fun st => pushAll st (List.replicate 12 (0 : Int)))

/-- Concrete stack for claim C6's witness: capacity 12 (> default), size 6,
so the next pop decrements size to 5 < 12/2 and fires the shrink. -/
def c6wStack : StackState Int := ⟨initialize_free_memory, fun _ => 0, 8, 6, 12⟩

/-- Concrete stack for claim C9's witness: size 2, capacity 8. -/
def c9wStack : StackState Int := ⟨initialize_free_memory, fun _ => 0, 0, 2, 8⟩

/-- Stack for claim C8: make on the initialized pool, then 9 pushes
(exactly one growth), reaching capacity 12. -/
def c8stack : Option (StackState Int) :=
  (make_stack initialize_free_memory (fun _ => (0 : Int))).bind
    (fun st => pushAll st (List.replicate 9 (0 : Int)))

/-- Bitmap after `make_stack` on the initialized pool: blocks 0..7 used. -/
def m8 : List Nat := markUsed initialize_free_memory 0 8

/-- Bitmap after the growth step's allocation of 12 blocks on `m8`:
blocks 0..19 used. -/
def m12 : List Nat := markUsed m8 8 12

/-- Bitmap after the growth step frees the old run `[0, 8)`:
blocks 8..19 used. -/
def m12f : List Nat := dmfree_array m12 0 8

/-- The data memory produced by the growth step's copy loop when the old
run starts at block 0 and the new one at block 8 (the `grownState` fold
instantiated at those starts). -/
def copyRun (d : Int → Int) (k : Int) : Int → Int :=
  (List.range k.toNat).foldl
    (fun dd i => Function.update dd ((8 : Int) + (i : Int)) (dd ((0 : Int) + (i : Int)))) d

end Claims

namespace DMem

/-- The probe loop never returns an index before its starting point. -/
theorem probeFrom_le (mem : List Nat) :
    ∀ k j r, probeFrom mem j k = some r → j ≤ r := by
  intro k
  induction k with
  | zero =>
    intro j r h
    simp [probeFrom] at h
  | succ k ih =>
    intro j r h
    rw [probeFrom] at h
    by_cases hc : __check_block_free mem j
    · rw [if_pos hc] at h
      have := ih (j + 1) r h
      omega
    · rw [if_neg hc] at h
      injection h with h2
      omega

/-- Every scan iteration advances `i` by at least one, so any fuel of at
least `MEMORY_SIZE - i` yields the same result: the fuel parameter of
`scanLoop` is an artifact of the encoding, not part of the semantics. -/
theorem scanLoop_fuel_irrelevant (mem : List Nat) (add : Nat) :
    ∀ f1 f2 i, MEMORY_SIZE - i ≤ f1 → MEMORY_SIZE - i ≤ f2 →
      scanLoop mem add i f1 = scanLoop mem add i f2 := by
  intro f1
  induction f1 with
  | zero =>
    intro f2 i h1 h2
    have hi : ¬ i < MEMORY_SIZE := by omega
    cases f2 with
    | zero => rfl
    | succ g => simp only [scanLoop, if_neg hi]
  | succ f ihf =>
    intro f2 i h1 h2
    cases f2 with
    | zero =>
      have hi : ¬ i < MEMORY_SIZE := by omega
      simp only [scanLoop, if_neg hi]
    | succ g =>
      by_cases hi : i < MEMORY_SIZE
      · simp only [scanLoop, if_pos hi]
        by_cases hc : __check_block_free mem i
        · simp only [if_pos hc]
          cases hp : probeFrom mem i add with
          | none => rfl
          | some j =>
            have hij := probeFrom_le mem add i j hp
            exact ihf g (j + 1) (by omega) (by omega)
        · simp only [if_neg hc]
          exact ihf g (i + 1) (by omega) (by omega)
      · simp only [scanLoop, if_neg hi]

end DMem

namespace DMem

/-- Loop-count versus set-cardinality: the counting loop over
`List.range n` agrees with the cardinality of the corresponding filter. -/
theorem countP_range_eq_filter_card (p : Nat → Bool) (n : Nat) :
    (List.range n).countP p = ((Finset.range n).filter (fun i => p i = true)).card := by
  induction n with
  | zero => simp
  | succ n ih =>
    rw [List.range_succ, List.countP_append, Finset.range_succ, Finset.filter_insert]
    by_cases h : p n = true
    · rw [if_pos h, Finset.card_insert_of_not_mem (by simp)]
      simp [ih, List.countP_cons, h]
    · rw [if_neg h]
      simp [ih, List.countP_cons, h]

end DMem

namespace StackDM

open DMem

/-- Structural description of a successful growth step. -/
theorem grow_eq {α : Type} {st st' : StackState α} (h : grow st = some st') :
    st'.size = st.size ∧ st'.capacity = (CAPACITY : Int) / 2 + st.capacity := by
  unfold grow at h
  rcases Option.map_eq_some'.mp h with ⟨p, _, rfl⟩
  exact ⟨rfl, rfl⟩

/-- Structural description of a successful push: the size always grows by
one; the capacity is unchanged unless the stack was full, in which case it
grows by `CAPACITY / 2`. -/
theorem push_eq {α : Type} {st st' : StackState α} {v : α}
    (h : push st v = some st') :
    st'.size = st.size + 1 ∧
      ((st.size ≠ st.capacity ∧ st'.capacity = st.capacity) ∨
       (st.size = st.capacity ∧ st'.capacity = (CAPACITY : Int) / 2 + st.capacity)) := by
  unfold push at h
  by_cases hc : st.size = st.capacity
  · rw [if_pos hc] at h
    rcases Option.map_eq_some'.mp h with ⟨g, hg, rfl⟩
    obtain ⟨hsz, hcap⟩ := grow_eq hg
    refine ⟨by simp [hsz], Or.inr ⟨hc, by simp [hcap]⟩⟩
  · rw [if_neg hc] at h
    rcases Option.map_eq_some'.mp h with ⟨g, hg, rfl⟩
    injection hg with hg2
    subst hg2
    exact ⟨rfl, Or.inl ⟨hc, rfl⟩⟩

/-- Structural description of a pop: the size always drops by one; the
capacity is halved exactly when the shrink condition fires. -/
theorem pop_eq {α : Type} (st : StackState α) :
    (pop st).1.size = st.size - 1 ∧
      (((CAPACITY : Int) < st.capacity ∧ st.size - 1 < st.capacity / 2 ∧
          (pop st).1.capacity = st.capacity / 2) ∨
       (¬ ((CAPACITY : Int) < st.capacity ∧ st.size - 1 < st.capacity / 2) ∧
          (pop st).1.capacity = st.capacity)) := by
  by_cases hc : (CAPACITY : Int) < st.capacity ∧ st.size - 1 < st.capacity / 2
  · refine ⟨?_, Or.inl ⟨hc.1, hc.2, ?_⟩⟩ <;> simp [pop, hc]
  · refine ⟨?_, Or.inr ⟨hc, ?_⟩⟩ <;> simp [pop, hc]

end StackDM

namespace ArrayDM

open DMem StackDM

/-- Structural description of a successful append: the size NEVER changes
(the element is dropped); the capacity is unchanged unless the array was
full, in which case it grows by `CAPACITY / 2`. -/
theorem append_eq {α : Type} {arr arr' : ArrayState α} {e : α}
    (h : append arr e = some arr') :
    arr'.size = arr.size ∧
      ((arr.size ≠ arr.capacity ∧ arr' = arr) ∨
       (arr.size = arr.capacity ∧ arr'.capacity = (CAPACITY : Int) / 2 + arr.capacity)) := by
  unfold append at h
  by_cases hc : arr.size = arr.capacity
  · rw [if_pos hc] at h
    rcases Option.map_eq_some'.mp h with ⟨p, _, rfl⟩
    exact ⟨rfl, Or.inr ⟨hc, rfl⟩⟩
  · rw [if_neg hc] at h
    injection h with h2
    subst h2
    exact ⟨rfl, Or.inl ⟨hc, rfl⟩⟩

end ArrayDM

set_option maxRecDepth 100000

namespace Claims

open DMem StackDM ArrayDM

/-- C1: the claim says two live runs granted by `allocate` never overlap.
The code violates it: from the initialized pool, `allocate(1)` grants 0,
`allocate(1)` grants 1, the first is released, and `allocate(2)` grants
the run `[0, 2)` even though block 1 is still live — the probe loop of
`__find_free_chunk` verifies only `numBlocks - 1` blocks (re-checking the
start block) but marks and grants `numBlocks`, so block 1 is handed out
twice.  The theorem evaluates the scenario: the second allocation starts
at 1, the final one at 0, and block 1 lies in both live runs. -/
theorem c1_live_runs_overlap :
    c1scenario = some (1, 0) ∧ 1 ∈ Finset.Ico 1 (1 + 1) ∩ Finset.Ico 0 (0 + 2) := by
  constructor
  · rfl
  · decide

/-- C2: the claim says `allocate(count)` returns the lowest-indexed run of
`count` contiguous FREE blocks and sets exactly those bits.  On the pool
`c2bitmap` (only block 1 used) the lowest such run for `count = 2` starts
at 2, but `__find_free_chunk` returns 0 — block 1 of the granted run is
already in use (and gets marked again): the probe loop checks blocks
`i .. i+count-2` instead of `i .. i+count-1`. -/
theorem c2_first_fit_mismatch :
    (__find_free_chunk c2bitmap 2).map (fun p => p.1) = some 0 ∧
    specFirstFitStart c2bitmap 2 = some 2 ∧
    __check_block_free c2bitmap 1 = false ∧
    1 ∈ markIndices 0 2 := by
  refine ⟨rfl, ?_, rfl, ?_⟩
  · decide
  · decide

/-- C3: the claim says that when no run of `count` contiguous free blocks
exists, `allocate(count)` signals OutOfMemory and performs no mutation.
On `c3bitmap` only one block (block 0) is free, so no run of 2 exists —
yet `__find_free_chunk` returns start 0 and mutates the bitmap
(byte 0 goes from 254 to 255). -/
theorem c3_success_without_free_run :
    specFirstFitStart c3bitmap 2 = none ∧
    (__find_free_chunk c3bitmap 2).map (fun p => p.1) = some 0 ∧
    (__find_free_chunk c3bitmap 2).map (fun p => p.2) ≠ some c3bitmap := by
  refine ⟨?_, rfl, ?_⟩
  · decide
  · decide

/-- C4: the claim says a granted run always satisfies
`start + count ≤ MEMORY_SIZE` and the bit-setter is never invoked with an
index ≥ `MEMORY_SIZE`.  On `c4bitmap` (only the last block, 511, free)
`__find_free_chunk 2` grants start 511: `511 + 2 > 512`, and the marking
loop passes index 512 to `__set_block_used` — in C that writes
`__free_memory[64]`, out of the declared array bounds. -/
theorem c4_out_of_bounds_grant :
    (__find_free_chunk c4bitmap 2).map (fun p => p.1) = some 511 ∧
    ¬ (511 + 2 ≤ MEMORY_SIZE) ∧
    512 ∈ markIndices 511 2 ∧ MEMORY_SIZE ≤ 512 := by
  refine ⟨rfl, ?_, ?_, ?_⟩ <;> decide

/-- C5: the claim says `push`/`append` stores the value at logical index
`size`, increments `size`, and a read of that index returns the value.
The array variant violates it: `append_TYPE`'s body contains only the
growth step, so appending 42 to a fresh array leaves `size = 0` and the
read of index 0 returns the untouched memory (0), not 42. -/
theorem c5_append_stores_nothing :
    (append c5fresh (42 : Int)).map (fun a => (a.size, at_element a 0)) =
      some (0, 0) ∧
    ((0 : Int), (0 : Int)) ≠ ((0 : Int) + 1, (42 : Int)) := by
  refine ⟨rfl, ?_⟩
  decide

end Claims

namespace Claims

open DMem StackDM ArrayDM

/-- C10 (confirmed, for EVERY bitmap state, which subsumes the claim's
reachable states): `amount_memory_used` returns exactly
`occupied count * 100 / MEMORY_SIZE` (floor division), an integer ≤ 100
(and trivially ≥ 0, being a `Nat`). -/
theorem c10_usage_percent_exact (mem : List Nat) :
    amount_memory_used mem = usedCount mem * 100 / MEMORY_SIZE ∧
      amount_memory_used mem ≤ 100 := by
  have hcount : (List.range MEMORY_SIZE).countP (fun i => !(__check_block_free mem i))
      = usedCount mem := by
    rw [countP_range_eq_filter_card]
    unfold usedCount
    congr 1
    apply Finset.filter_congr
    intro i _
    simp
  constructor
  · unfold amount_memory_used
    rw [hcount]
  · unfold amount_memory_used
    rw [hcount]
    have hle : usedCount mem ≤ MEMORY_SIZE := by
      calc usedCount mem ≤ (Finset.range MEMORY_SIZE).card := Finset.card_filter_le _ _
        _ = MEMORY_SIZE := Finset.card_range _
    calc usedCount mem * 100 / MEMORY_SIZE ≤ MEMORY_SIZE * 100 / MEMORY_SIZE :=
          Nat.div_le_div_right (Nat.mul_le_mul_right _ hle)
      _ = 100 := by norm_num [MEMORY_SIZE]

/-- C10 witness: the theorem applied to the initialized pool. -/
theorem c10_usage_percent_witness :
    amount_memory_used initialize_free_memory =
        usedCount initialize_free_memory * 100 / MEMORY_SIZE ∧
      amount_memory_used initialize_free_memory ≤ 100 :=
  c10_usage_percent_exact initialize_free_memory

end Claims

namespace Claims

open DMem StackDM ArrayDM

/-- C6 counterexample: the claim says capacity never drops below
`defaultCapacity` (8) and that a shrink fired at capacity 12 leaves
capacity 8.  Running the code — make (capacity 8), 12 pushes (one growth
to capacity 12, size 12), then 7 pops — fires the shrink at size 5 < 12/2
and sets `capacity = capacity / 2 = 6 < 8`. -/
theorem c6_shrink_below_default :
    c6stack.map (fun st => (popN 7 st).capacity) = some 6 ∧
      ¬ ((CAPACITY : Int) ≤ 6) := by
  refine ⟨rfl, ?_⟩
  decide

/-- C6 amended: the capacity never drops below `defaultCapacity / 2 = 4`
(not `defaultCapacity`): `make` starts at 8; `push` only grows the
capacity; a shrink halves a capacity that was > 8, hence leaves at least
4.  A shrink fired at capacity 12 leaves capacity 6 (not 8). -/
theorem c6_capacity_floor_amended :
    (∀ (fm : List Nat) (d : Int → Int) (st : StackState Int),
        make_stack fm d = some st → (CAPACITY : Int) / 2 ≤ st.capacity)
    ∧ (∀ (α : Type) (st st' : StackState α) (v : α),
        (CAPACITY : Int) / 2 ≤ st.capacity → push st v = some st' →
          (CAPACITY : Int) / 2 ≤ st'.capacity)
    ∧ (∀ (α : Type) (st : StackState α),
        (CAPACITY : Int) / 2 ≤ st.capacity →
          (CAPACITY : Int) / 2 ≤ (pop st).1.capacity)
    ∧ (∀ (st : StackState Int),
        st.capacity = 12 → st.size - 1 < st.capacity / 2 →
          (pop st).1.capacity = 6) := by
  have h4 : (CAPACITY : Int) / 2 = 4 := by decide
  have h8 : (CAPACITY : Int) = 8 := by decide
  refine ⟨?_, ?_, ?_, ?_⟩
  · intro fm d st h
    rcases Option.map_eq_some'.mp h with ⟨p, _, rfl⟩
    show (CAPACITY : Int) / 2 ≤ (CAPACITY : Int)
    decide
  · intro α st st' v hinv h
    obtain ⟨hsz, hcap⟩ := push_eq h
    rw [h4] at hinv ⊢
    rcases hcap with ⟨_, hc⟩ | ⟨_, hc⟩
    · omega
    · rw [h4] at hc
      omega
  · intro α st hinv
    obtain ⟨hsz, hcap⟩ := pop_eq st
    rw [h4] at hinv ⊢
    rcases hcap with ⟨hgt, _, hc⟩ | ⟨_, hc⟩
    · rw [h8] at hgt
      omega
    · omega
  · intro st hcap hsz
    obtain ⟨hs, hc⟩ := pop_eq st
    rcases hc with ⟨_, _, h6⟩ | ⟨hn, _⟩
    · rw [h6, hcap]
      decide
    · exact absurd ⟨by rw [h8, hcap]; decide, hsz⟩ hn

/-- C6 amended witness: the shrink-at-12 part applied to the concrete
stack `c6wStack` (capacity 12, size 6): its pop leaves capacity 6. -/
theorem c6_capacity_floor_witness :
    c6wStack.capacity = 12 ∧ c6wStack.size - 1 < c6wStack.capacity / 2 ∧
      (pop c6wStack).1.capacity = 6 :=
  ⟨rfl, by decide, c6_capacity_floor_amended.2.2.2 c6wStack rfl (by decide)⟩

end Claims

namespace Claims

open DMem StackDM ArrayDM

/-- C8 counterexample: the claim says a container of capacity `c` over
element type T reserves `c * coefficient` pool blocks.  For T = `int`
(`INTCOEF = 2`): `make_stack` on the initialized pool reserves exactly 8
blocks for capacity 8, but the claim's formula demands
`8 * INTCOEF = 16`. -/
theorem c8_reservation_not_coefficient_scaled :
    (make_stack initialize_free_memory (fun _ => (0 : Int))).map
        (fun st => (usedCount st.freeMem, st.capacity)) = some (8, 8) ∧
      (8 : Nat) ≠ 8 * INTCOEF := by
  constructor
  · decide
  · decide

/-- C8 amended: a container of capacity `c` is backed by one run of
exactly `c` blocks — `c * 1`, not `c * coefficient`.  Each element
occupies one block: when `sizeof(T)` divides the block size, the element
accessed as `arr[TYPECOEF * i]` lies `i` blocks past the run start
(`elemBlockOffset`), so `capacity` elements need `capacity` blocks; and
indeed `make_stack` leaves exactly `capacity = 8` blocks reserved and the
first growth leaves exactly `capacity = 12` blocks reserved, independent
of the coefficient. -/
theorem c8_run_capacity_blocks_amended :
    (∀ sizeofType : Nat, 0 < sizeofType → sizeofType ∣ blockSize →
        ∀ i : Nat, elemBlockOffset sizeofType i = i)
    ∧ (make_stack initialize_free_memory (fun _ => (0 : Int))).map
        (fun st => (usedCount st.freeMem, st.capacity)) = some (8, 8)
    ∧ c8stack.map (fun st => (usedCount st.freeMem, st.capacity)) = some (12, 12) := by
  refine ⟨?_, by decide, by decide⟩
  intro sT hpos hdvd i
  unfold elemBlockOffset TYPECOEF
  rw [Nat.mul_right_comm, Nat.div_mul_cancel hdvd]
  simp [blockSize]

/-- C8 amended witness: the per-element block mapping applied to
`sizeof(int) = 4`, element index 5. -/
theorem c8_run_capacity_blocks_witness :
    0 < 4 ∧ 4 ∣ blockSize ∧ elemBlockOffset 4 5 = 5 :=
  ⟨by decide, by decide, c8_run_capacity_blocks_amended.1 4 (by decide) (by decide) 5⟩

end Claims

namespace Claims

open DMem StackDM ArrayDM

/-- C9 (confirmed): `0 ≤ size ≤ capacity` holds after `make` and is
preserved by every container operation under the claim's preconditions
(`pop`/`removeLast` on `size > 0`, `removeAt` on `0 ≤ index < size`);
together these cover every container reachable from `make` by such
operations. -/
theorem c9_size_within_capacity :
    (∀ (α : Type) (fm : List Nat) (d : Int → α) (st : StackState α),
        make_stack fm d = some st → 0 ≤ st.size ∧ st.size ≤ st.capacity)
    ∧ (∀ (α : Type) (fm : List Nat) (d : Int → α) (g : Int),
        0 ≤ (make_array fm d g).size ∧
          (make_array fm d g).size ≤ (make_array fm d g).capacity)
    ∧ (∀ (α : Type) (st st' : StackState α) (v : α),
        0 ≤ st.size → st.size ≤ st.capacity → push st v = some st' →
          0 ≤ st'.size ∧ st'.size ≤ st'.capacity)
    ∧ (∀ (α : Type) (st : StackState α),
        0 ≤ st.size → st.size ≤ st.capacity → 0 < st.size →
          0 ≤ (pop st).1.size ∧ (pop st).1.size ≤ (pop st).1.capacity)
    ∧ (∀ (α : Type) (arr arr' : ArrayState α) (e : α),
        0 ≤ arr.size → arr.size ≤ arr.capacity → append arr e = some arr' →
          0 ≤ arr'.size ∧ arr'.size ≤ arr'.capacity)
    ∧ (∀ (α : Type) (arr : ArrayState α),
        0 ≤ arr.size → arr.size ≤ arr.capacity → 0 < arr.size →
          0 ≤ (remove_last arr).1.size ∧
            (remove_last arr).1.size ≤ (remove_last arr).1.capacity)
    ∧ (∀ (α : Type) (arr : ArrayState α) (idx : Int),
        0 ≤ arr.size → arr.size ≤ arr.capacity → 0 ≤ idx → idx < arr.size →
          0 ≤ (remove_at arr idx).size ∧
            (remove_at arr idx).size ≤ (remove_at arr idx).capacity) := by
  have h4 : (CAPACITY : Int) / 2 = 4 := by decide
  refine ⟨?_, ?_, ?_, ?_, ?_, ?_, ?_⟩
  · intro α fm d st h
    rcases Option.map_eq_some'.mp h with ⟨p, _, rfl⟩
    exact ⟨le_refl 0, show (0 : Int) ≤ (CAPACITY : Int) by decide⟩
  · intro α fm d g
    exact ⟨le_refl 0, show (0 : Int) ≤ (CAPACITY : Int) by decide⟩
  · intro α st st' v h0 h1 h
    obtain ⟨hsz, hcap⟩ := push_eq h
    rcases hcap with ⟨hne, hc⟩ | ⟨heq, hc⟩
    · omega
    · rw [h4] at hc
      omega
  · intro α st h0 h1 h2
    obtain ⟨hsz, hcap⟩ := pop_eq st
    rcases hcap with ⟨_, hlt, hc⟩ | ⟨_, hc⟩ <;> omega
  · intro α arr arr' e h0 h1 h
    obtain ⟨hsz, hcap⟩ := append_eq h
    rcases hcap with ⟨hne, rfl⟩ | ⟨heq, hc⟩
    · omega
    · rw [h4] at hc
      omega
  · intro α arr h0 h1 h2
    refine ⟨?_, ?_⟩ <;> show _ ≤ _ <;> simp [remove_last] <;> omega
  · intro α arr idx h0 h1 h2 h3
    refine ⟨?_, ?_⟩ <;> simp [remove_at] <;> omega

end Claims

namespace Claims

open DMem StackDM ArrayDM

/-- Closed allocator fact: `make_stack`'s allocation on the initialized
pool grants the run starting at block 0 and marks blocks 0..7. -/
theorem alloc_init8 : dmalloc_array initialize_free_memory CAPACITY = some (0, m8) := rfl

/-- Closed allocator fact: the growth step's allocation of
`(CAPACITY / 2) + 8 = 12` blocks on `m8` grants the run starting at
block 8 and marks blocks 8..19. -/
theorem alloc_m8_12 :
    dmalloc_array m8 ((((CAPACITY : Int) / 2) + (8 : Int)).toNat) = some (8, m12) := rfl

/-- Evaluation of `make_stack` on the initialized pool. -/
theorem make_eval : make_stack initialize_free_memory (fun _ => (0 : Int)) =
    some ⟨m8, (fun _ => (0 : Int)), 0, 0, 8⟩ := by
  unfold make_stack
  rw [alloc_init8]
  rfl

/-- Evaluation of a push on a non-full stack backed by the run `[0, 8)`:
store at block `0 + k`, increment the size. -/
theorem push_nf_eval (d : Int → Int) (v : Int) (k : Int) (hk : ¬ (k = 8)) :
    push (⟨m8, d, 0, k, 8⟩ : StackState Int) v =
      some ⟨m8, Function.update d ((0 : Int) + k) v, 0, k + 1, 8⟩ := by
  unfold push
  rw [if_neg (show ¬ ((⟨m8, d, 0, k, 8⟩ : StackState Int).size =
    (⟨m8, d, 0, k, 8⟩ : StackState Int).capacity) from hk)]
  rfl

/-- Evaluation of the growth step on a stack backed by the run `[0, 8)`:
the new run is `[8, 20)`. -/
theorem grow_m8_eval (d : Int → Int) (k : Int) :
    grow (⟨m8, d, 0, k, 8⟩ : StackState Int) =
      some (grownState ⟨m8, d, 0, k, 8⟩ (8, m12)) := by
  unfold grow
  rw [alloc_m8_12]
  rfl

/-- Evaluation of a push on a full stack (size `k = 8`, capacity 8)
backed by the run `[0, 8)`: grow to the run `[8, 20)` with capacity 12,
copy the 8 elements, free the old run, store at block `8 + k`. -/
theorem push_full_eval (d : Int → Int) (v : Int) (k : Int) (hk : k = 8) :
    push (⟨m8, d, 0, k, 8⟩ : StackState Int) v =
      some ⟨m12f, Function.update (copyRun d k) ((8 : Int) + k) v, 8, k + 1, 12⟩ := by
  unfold push
  rw [if_pos (show ((⟨m8, d, 0, k, 8⟩ : StackState Int).size =
    (⟨m8, d, 0, k, 8⟩ : StackState Int).capacity) from hk)]
  rw [grow_m8_eval d k]
  with_unfolding_all rfl

/-- Unfolding equation of `pushAll` on a cons cell. -/
theorem pushAll_cons (st : StackState Int) (v : Int) (vs : List Int) :
    pushAll st (v :: vs) = (push st v).bind (fun s => pushAll s vs) := rfl

/-- Unfolding equation of `pushAll` on the empty list. -/
theorem pushAll_nil (st : StackState Int) : pushAll st ([] : List Int) = some st := rfl

/-- Reduction of the bind over an already-computed state. -/
theorem bind_pushAll (st : StackState Int) (vs : List Int) :
    (some st).bind (fun s => pushAll s vs) = pushAll st vs := rfl

/-- C7 (confirmed): pushing `capacity + 1 = 9` values onto a fresh stack
on the initialized pool triggers exactly one growth — the capacity moves
from 8 to `8 + 8/2 = 12` in that single event, as witnessed by the final
capacity — and afterwards the size is 9 and every logical index `0..8`
reads back the pushed value in original insertion order, unchanged by the
growth event. -/
theorem c7_growth_roundtrip (v0 v1 v2 v3 v4 v5 v6 v7 v8 : Int) :
    ((make_stack initialize_free_memory (fun _ => (0 : Int))).bind
        (fun st => pushAll st [v0, v1, v2, v3, v4, v5, v6, v7, v8])).map
        (fun st => (st.size, st.capacity,
          read_elem st 0, read_elem st 1, read_elem st 2, read_elem st 3,
          read_elem st 4, read_elem st 5, read_elem st 6, read_elem st 7,
          read_elem st 8))
      = some (9, 12, v0, v1, v2, v3, v4, v5, v6, v7, v8) := by
  rw [make_eval, bind_pushAll,
    pushAll_cons, push_nf_eval _ _ 0 (by norm_num), bind_pushAll,
    pushAll_cons, push_nf_eval _ _ (0 + 1) (by norm_num), bind_pushAll,
    pushAll_cons, push_nf_eval _ _ (0 + 1 + 1) (by norm_num), bind_pushAll,
    pushAll_cons, push_nf_eval _ _ (0 + 1 + 1 + 1) (by norm_num), bind_pushAll,
    pushAll_cons, push_nf_eval _ _ (0 + 1 + 1 + 1 + 1) (by norm_num), bind_pushAll,
    pushAll_cons, push_nf_eval _ _ (0 + 1 + 1 + 1 + 1 + 1) (by norm_num), bind_pushAll,
    pushAll_cons, push_nf_eval _ _ (0 + 1 + 1 + 1 + 1 + 1 + 1) (by norm_num), bind_pushAll,
    pushAll_cons, push_nf_eval _ _ (0 + 1 + 1 + 1 + 1 + 1 + 1 + 1) (by norm_num), bind_pushAll,
    pushAll_cons, push_full_eval _ _ (0 + 1 + 1 + 1 + 1 + 1 + 1 + 1 + 1) (by norm_num), bind_pushAll,
    pushAll_nil]
  rfl

end Claims

namespace Claims

open DMem StackDM ArrayDM

/-- C9 witness: the pop case applied to the concrete stack `c9wStack`
(size 2, capacity 8). -/
theorem c9_size_within_capacity_witness :
    0 ≤ c9wStack.size ∧ c9wStack.size ≤ c9wStack.capacity ∧ 0 < c9wStack.size ∧
      (0 ≤ (pop c9wStack).1.size ∧
        (pop c9wStack).1.size ≤ (pop c9wStack).1.capacity) :=
  ⟨by decide, by decide, by decide,
    c9_size_within_capacity.2.2.2.1 Int c9wStack (by decide) (by decide) (by decide)⟩

end Claims
